import Mathlib

/-!
Verification development for the singularity build pipeline and its
privileged helper operations.

The Go sources embedded here:
  * internal/pkg/build/metadata/metadata.go — the build package
    (two revisions of the package are present in the repository; where
    they differ, the revision named by each claim is embedded and the
    definition's doc comment says which one),
  * pkg/ocibundle/sif/bundle.go — the OCI bundle materializer,
  * src/runtime/engines/singularity/rpc/server/server.go — the
    privileged RPC server.

Modelling conventions: Go functions returning `error` become functions
returning `Option String` (`none` = nil error) or `Except String α`;
calls into packages that are not part of the sources (the OS, the
`types`/`sources`/`tools` collaborators) are environment oracles passed
in explicitly, so every embedded function stays executable; observable
actions are recorded as explicit event lists so that ordering claims can
be stated.
-/

namespace Singularity

/-! ### Build data model (pkg/build/types, fields as used by the sources) -/

/-- Script section of a build definition (`types.Script`): the body text. -/
structure Script where
  Script : String
deriving Repr, DecidableEq

/-- One file transfer of a files directive (`types.FileTransfer`). -/
structure FileTransfer where
  Src : String
  Dst : String
deriving Repr, DecidableEq

/-- One `%files` directive (`types.Files`): its argument string (naming a
source stage) and its transfers. -/
structure FilesDirective where
  Args : String
  Files : List FileTransfer
deriving Repr, DecidableEq

/-- The build-time sections of a definition (`types.BuildData`), as read by
the build package: pre/setup/post/test script bodies and files directives. -/
structure BuildData where
  Pre : Script
  Setup : Script
  Post : Script
  Test : Script
  Files : List FilesDirective
deriving Repr, DecidableEq

/-- A build definition (`types.Definition`). `Header` is a Go map that can be
nil: `none` models a nil map, `some l` a (possibly empty) association list.
Reading a key from a nil Go map yields the zero value `""`, which
`headerGet` reproduces. -/
structure Definition where
  Header : Option (List (String × String))
  BuildData : BuildData
deriving Repr, DecidableEq

/-- Go map read `d.Header[k]`: the zero value `""` when the map is nil or the
key is absent. -/
def headerGet (h : Option (List (String × String))) (k : String) : String :=
  match h with
  | none => ""
  | some l => (l.lookup k).getD ""

/-- Build options (`types.Options`), fields as used by the build package. -/
structure Options where
  Update : Bool
  Force : Bool
  ImgCache : Option Unit
  TmpDir : String
  EncryptionKeyInfo : Option Unit
deriving Repr, DecidableEq

/-- A stage bundle (`types.Bundle`), fields as used by the build package. -/
structure Bundle where
  RootfsPath : String
  TmpDir : String
  Recipe : Definition
  Opts : Options
deriving Repr, DecidableEq

/-! ### ConveyorPacker dispatch (`getcp`, metadata.go lines 976–1005) -/

/-- The ConveyorPacker variants returned by `getcp`; the library variant
records the `AllowUnauthenticated` field set at construction. -/
inductive ConveyorPacker
  | LibraryConveyorPacker (AllowUnauthenticated : Bool)
  | ShubConveyorPacker
  | OCIConveyorPacker
  | BusyBoxConveyorPacker
  | DebootstrapConveyorPacker
  | ArchConveyorPacker
  | LocalConveyorPacker
  | YumConveyorPacker
  | ZypperConveyorPacker
  | ScratchConveyorPacker
deriving Repr, DecidableEq

/-- Dispatch `getcp` from the source: a switch on `def.Header["bootstrap"]`.
The second component is the list of filesystem operations the function
performs; the source function only constructs values and formats error
strings, so it is `[]` on every path. -/
def getcp (d : Definition) (libraryURL authToken : String) (unauthenticatedBuild : Bool) :
    Except String ConveyorPacker × List String :=
  let key := headerGet d.Header "bootstrap"
  let r : Except String ConveyorPacker :=
    if key = "library" then .ok (.LibraryConveyorPacker unauthenticatedBuild)
    else if key = "shub" then .ok .ShubConveyorPacker
    else if key = "docker" then .ok .OCIConveyorPacker
    else if key = "docker-archive" then .ok .OCIConveyorPacker
    else if key = "docker-daemon" then .ok .OCIConveyorPacker
    else if key = "oci" then .ok .OCIConveyorPacker
    else if key = "oci-archive" then .ok .OCIConveyorPacker
    else if key = "busybox" then .ok .BusyBoxConveyorPacker
    else if key = "debootstrap" then .ok .DebootstrapConveyorPacker
    else if key = "arch" then .ok .ArchConveyorPacker
    else if key = "localimage" then .ok .LocalConveyorPacker
    else if key = "yum" then .ok .YumConveyorPacker
    else if key = "zypper" then .ok .ZypperConveyorPacker
    else if key = "scratch" then .ok .ScratchConveyorPacker
    else if key = "" then .error "no bootstrap specification found"
    else .error ("invalid build source " ++ key)
  (r, [])

/-- The bootstrap keys `getcp` accepts. -/
def supportedBootstrapKeys : List String :=
  ["library", "shub", "docker", "docker-archive", "docker-daemon", "oci",
   "oci-archive", "busybox", "debootstrap", "arch", "localimage", "yum",
   "zypper", "scratch"]

/-! ### Privileged Chroot (server.go lines 36–78) -/

/-- The seven system calls `Methods.Chroot` performs, in source order. -/
inductive ChrootStep
  | openRoot
  | chdirNewRoot
  | pivotRoot
  | fchdirOldRoot
  | mountSlave
  | unmountDetach
  | chdirSlash
deriving Repr, DecidableEq

/-- Outcome of each system call `Methods.Chroot` makes: `none` is success,
`some e` is the OS error text. -/
structure ChrootEnv where
  openRoot : Option String
  chdirNewRoot : Option String
  pivotRoot : Option String
  fchdirOldRoot : Option String
  mountSlave : Option String
  unmountDetach : Option String
  chdirSlash : Option String
deriving Repr, DecidableEq

/-- The outcome `env` assigns to a given step. -/
def ChrootEnv.result (env : ChrootEnv) : ChrootStep → Option String
  | .openRoot => env.openRoot
  | .chdirNewRoot => env.chdirNewRoot
  | .pivotRoot => env.pivotRoot
  | .fchdirOldRoot => env.fchdirOldRoot
  | .mountSlave => env.mountSlave
  | .unmountDetach => env.unmountDetach
  | .chdirSlash => env.chdirSlash

/-- The error message the source formats when a given step fails, with
`root` the requested new root and the step's OS error text interpolated. -/
def chrootStepErr (root : String) (env : ChrootEnv) : ChrootStep → String
  | .openRoot => "failed to open host root directory: " ++ (env.openRoot.getD "")
  | .chdirNewRoot => "failed to change directory to " ++ root
  | .pivotRoot => "pivot_root " ++ root ++ ": " ++ (env.pivotRoot.getD "")
  | .fchdirOldRoot => "failed to change directory to old root: " ++ (env.fchdirOldRoot.getD "")
  | .mountSlave =>
      "failed to apply slave mount propagation for host / directory: " ++ (env.mountSlave.getD "")
  | .unmountDetach => "unmount pivot_root dir " ++ (env.unmountDetach.getD "")
  | .chdirSlash => "chdir / " ++ (env.chdirSlash.getD "")

/-- `Methods.Chroot` from the source: the executed steps in order, and the
returned error (`none` = nil). Each step's failure formats its own error and
returns at once, so the trace stops at the failing step. -/
def Methods.Chroot (root : String) (env : ChrootEnv) : List ChrootStep × Option String :=
  match env.openRoot with
  | some e => ([.openRoot], some ("failed to open host root directory: " ++ e))
  | none =>
  match env.chdirNewRoot with
  | some _ => ([.openRoot, .chdirNewRoot], some ("failed to change directory to " ++ root))
  | none =>
  match env.pivotRoot with
  | some e =>
      ([.openRoot, .chdirNewRoot, .pivotRoot], some ("pivot_root " ++ root ++ ": " ++ e))
  | none =>
  match env.fchdirOldRoot with
  | some e =>
      ([.openRoot, .chdirNewRoot, .pivotRoot, .fchdirOldRoot],
       some ("failed to change directory to old root: " ++ e))
  | none =>
  match env.mountSlave with
  | some e =>
      ([.openRoot, .chdirNewRoot, .pivotRoot, .fchdirOldRoot, .mountSlave],
       some ("failed to apply slave mount propagation for host / directory: " ++ e))
  | none =>
  match env.unmountDetach with
  | some e =>
      ([.openRoot, .chdirNewRoot, .pivotRoot, .fchdirOldRoot, .mountSlave, .unmountDetach],
       some ("unmount pivot_root dir " ++ e))
  | none =>
  match env.chdirSlash with
  | some e =>
      ([.openRoot, .chdirNewRoot, .pivotRoot, .fchdirOldRoot, .mountSlave, .unmountDetach,
        .chdirSlash],
       some ("chdir / " ++ e))
  | none =>
      ([.openRoot, .chdirNewRoot, .pivotRoot, .fchdirOldRoot, .mountSlave, .unmountDetach,
        .chdirSlash],
       none)

/-- The full step order of the chroot sequence. -/
def chrootOrder : List ChrootStep :=
  [.openRoot, .chdirNewRoot, .pivotRoot, .fchdirOldRoot, .mountSlave, .unmountDetach, .chdirSlash]

/-- First failing step of the sequence under `env`, if any. -/
def chrootFirstFail (env : ChrootEnv) : Option ChrootStep :=
  chrootOrder.find? fun s => (env.result s).isSome

/-- Reference behaviour written from the spec's words for the Chroot
operation: run the steps in the stated order, abort at the first failure
with an error identifying that step, never execute a later step. -/
def chrootSpec (root : String) (env : ChrootEnv) : List ChrootStep × Option String :=
  match chrootFirstFail env with
  | none => (chrootOrder, none)
  | some s =>
      (chrootOrder.takeWhile (fun t => decide (t ≠ s)) ++ [s], some (chrootStepErr root env s))

/-! ### OCI bundle materializer (pkg/ocibundle/sif/bundle.go) -/

/-- The receiver struct `sifBundle`: image path, bundle path, writable flag. -/
structure SifBundle where
  image : String
  bundlePath : String
  writable : Bool
deriving Repr, DecidableEq

/-- Filesystem types a SIF partition can carry (`sif.Fstype`); `Create`
accepts only `FsSquash`. -/
inductive Fstype
  | FsSquash
  | FsExt3
  | FsImmuObj
  | FsRaw
deriving Repr, DecidableEq

/-- Outcomes of the external calls `sifBundle.Create` makes, in source
order: `none`/`.ok` is success, the `String` is the collaborator's error
text. -/
structure CreateEnv where
  openImage : Option String
  loadContainer : Option String
  getPartPrimSys : Option String
  getFsType : Except String Fstype
  createBundle : Option String
  createLoop : Except String String
  mountSquashfs : Option String
  createOverlay : Option String
deriving Repr

/-- Resource-acquisition state after a `Create`/`Delete` call: whether the
bundle directory exists, a loop device is attached, the rootfs is mounted,
and overlay directories exist. A teardown call clears its flag (the call
was issued; teardown is best effort). -/
structure Resources where
  bundleDir : Bool
  loopAttached : Bool
  mounted : Bool
  overlay : Bool
deriving Repr, DecidableEq

/-- The empty resource state: nothing acquired. -/
def Resources.clear : Resources :=
  { bundleDir := false, loopAttached := false, mounted := false, overlay := false }

/-- Resource events of `Create`: acquisitions and the teardown calls made
on its error paths. -/
inductive CreateEvent
  | createBundleDir
  | attachLoop
  | mountRootfs
  | createOverlayDir
  | tdUnmount
  | tdDeleteBundle
deriving Repr, DecidableEq

/-- Modelled from the spec: the loop attachment's lifetime. The data model
states a loop attachment "exists only for the duration a bundle's data
partition is mounted" (the attach is made with autoclear status flags and
the backing file descriptor is closed when `Create` returns), so when
control returns with the partition not mounted the attachment is released.
`tools.CreateLoop` itself is not part of the sources. -/
def releaseUnmountedLoop (r : Resources) : Resources :=
  { r with loopAttached := r.loopAttached && r.mounted }

/-- `sifBundle.Create` from the source: returned error (`none` = nil),
final resource state, and resource events in order. Error paths after
partial setup issue the teardown calls the source makes (`DeleteBundle`
after a loop failure; `DeleteBundle` after a mount failure; detach-unmount
then `DeleteBundle` after an overlay failure). -/
def sifBundle.Create (s : SifBundle) (env : CreateEnv) :
    Option String × Resources × List CreateEvent :=
  if s.image = "" then
    (some "image wasn't set, need one to create bundle", Resources.clear, [])
  else
    match env.openImage with
    | some e => (some ("can't open image " ++ s.image ++ ": " ++ e), Resources.clear, [])
    | none =>
    match env.loadContainer with
    | some e => (some ("could not load image fp: " ++ e), Resources.clear, [])
    | none =>
    match env.getPartPrimSys with
    | some e => (some ("could not get primaty partitions: " ++ e), Resources.clear, [])
    | none =>
    match env.getFsType with
    | .error e => (some ("could not get fs type: " ++ e), Resources.clear, [])
    | .ok fstype =>
    if fstype ≠ Fstype.FsSquash then
      (some "unsuported image fs type", Resources.clear, [])
    else
    match env.createBundle with
    | some e => (some ("failed to create OCI bundle: " ++ e), Resources.clear, [])
    | none =>
    let r1 : Resources :=
      { bundleDir := true, loopAttached := false, mounted := false, overlay := false }
    match env.createLoop with
    | .error e =>
        (some ("failed to find loop device: " ++ e),
         releaseUnmountedLoop { r1 with bundleDir := false },
         [.createBundleDir, .tdDeleteBundle])
    | .ok _ =>
    let r2 : Resources := { r1 with loopAttached := true }
    match env.mountSquashfs with
    | some e =>
        (some ("failed to mount SIF partition: " ++ e),
         releaseUnmountedLoop { r2 with bundleDir := false },
         [.createBundleDir, .attachLoop, .tdDeleteBundle])
    | none =>
    let r3 : Resources := { r2 with mounted := true }
    if s.writable then
      match env.createOverlay with
      | some e =>
          (some ("failed to create overlay: " ++ e),
           releaseUnmountedLoop { r3 with mounted := false, bundleDir := false },
           [.createBundleDir, .attachLoop, .mountRootfs, .tdUnmount, .tdDeleteBundle])
      | none =>
          (none, releaseUnmountedLoop { r3 with overlay := true },
           [.createBundleDir, .attachLoop, .mountRootfs, .createOverlayDir])
    else
      (none, releaseUnmountedLoop r3, [.createBundleDir, .attachLoop, .mountRootfs])

/-- Checks that no detach-unmount teardown call is made after a
bundle-directory removal: the unmount is always attempted before the
bundle directory is removed. -/
def teardownOrdered : List CreateEvent → Bool
  | [] => true
  | CreateEvent.tdDeleteBundle :: rest =>
      rest.all (fun e => !(e == CreateEvent.tdUnmount)) && teardownOrdered rest
  | _ :: rest => teardownOrdered rest

/-- The three steps of `sifBundle.Delete`, in source order. -/
inductive DeleteStep
  | deleteOverlay
  | unmountRootfs
  | deleteBundleDir
deriving Repr, DecidableEq

/-- Outcomes of the calls `sifBundle.Delete` makes. -/
structure DeleteEnv where
  deleteOverlay : Option String
  unmount : Option String
  deleteBundle : Option String
deriving Repr, DecidableEq

/-- Path of the OCI-style root filesystem directory inside the bundle
(`tools.RootFs(bundlePath).Path()`; the `tools` package is not part of the
sources — the spec places the root under the bundle directory). -/
def rootFsOf (bundlePath : String) : String :=
  bundlePath ++ "/rootfs"

/-- `sifBundle.Delete` from the source: the attempted steps in order and
the returned error. The source returns at the first failing call: a failed
overlay removal returns before the unmount, and a failed unmount returns
before the bundle-directory removal. -/
def sifBundle.Delete (s : SifBundle) (env : DeleteEnv) : Option String × List DeleteStep :=
  if s.writable then
    match env.deleteOverlay with
    | some e => (some ("delete error: " ++ e), [.deleteOverlay])
    | none =>
    match env.unmount with
    | some e =>
        (some ("failed to unmount " ++ rootFsOf s.bundlePath ++ ": " ++ e),
         [.deleteOverlay, .unmountRootfs])
    | none =>
    match env.deleteBundle with
    | some e => (some e, [.deleteOverlay, .unmountRootfs, .deleteBundleDir])
    | none => (none, [.deleteOverlay, .unmountRootfs, .deleteBundleDir])
  else
    match env.unmount with
    | some e =>
        (some ("failed to unmount " ++ rootFsOf s.bundlePath ++ ": " ++ e), [.unmountRootfs])
    | none =>
    match env.deleteBundle with
    | some e => (some e, [.unmountRootfs, .deleteBundleDir])
    | none => (none, [.unmountRootfs, .deleteBundleDir])

/-- The first failing step of `Delete` under `env`, honouring the overlay
step's presence only for writable bundles. -/
def deleteSteps (s : SifBundle) : List DeleteStep :=
  (if s.writable then [DeleteStep.deleteOverlay] else []) ++
    [DeleteStep.unmountRootfs, DeleteStep.deleteBundleDir]

/-- The outcome `env` assigns to a given delete step. -/
def DeleteEnv.result (env : DeleteEnv) : DeleteStep → Option String
  | .deleteOverlay => env.deleteOverlay
  | .unmountRootfs => env.unmount
  | .deleteBundleDir => env.deleteBundle

/-- The error message `Delete` formats for a failing step. -/
def deleteStepErr (s : SifBundle) (env : DeleteEnv) : DeleteStep → String
  | .deleteOverlay => "delete error: " ++ (env.deleteOverlay.getD "")
  | .unmountRootfs => "failed to unmount " ++ rootFsOf s.bundlePath ++ ": " ++ (env.unmount.getD "")
  | .deleteBundleDir => env.deleteBundle.getD ""

/-- Reference behaviour for the amended delete claim: attempt the steps in
order (overlay only when writable), abort at the first failing step with
that step's error. -/
def deleteSpec (s : SifBundle) (env : DeleteEnv) : Option String × List DeleteStep :=
  match (deleteSteps s).find? (fun t => (env.result t).isSome) with
  | none => (none, deleteSteps s)
  | some t =>
      (some (deleteStepErr s env t),
       (deleteSteps s).takeWhile (fun u => decide (u ≠ t)) ++ [t])

/-! ### Stage and Build (metadata.go, second revision, lines 176–697) -/

/-- The assembler selected for the last stage. -/
inductive Assembler
  | SandboxAssembler
  | SIFAssembler (GzipFlag : Bool) (MksquashfsPath : String)
deriving Repr, DecidableEq

/-- A build stage: its name (from the definition header), its bundle, and
the optional conveyor-packer and assembler. -/
structure stage where
  name : String
  b : Bundle
  c : Option ConveyorPacker
  a : Option Assembler
deriving Repr, DecidableEq

/-- Cross-stage build configuration (`Config`). -/
structure Config where
  Dest : String
  Format : String
  NoCleanUp : Bool
  Opts : Options
deriving Repr, DecidableEq

/-- The build object: its stages and configuration. -/
structure Build where
  stages : List stage
  Conf : Config
deriving Repr, DecidableEq

/-! ### Bundle cleanup (`Build.cleanUp`, metadata.go lines 395–413) -/

/-- Modelled from the spec: `types.Bundle.Remove` is not part of the
sources; a bundle is "destroyed by removal of its working directory tree"
— removing the rootfs directory and the temporary directory. Removal of an
already-absent tree succeeds, so the returned error is `nil`. The
filesystem is the list of existing directory paths. -/
def Bundle.Remove (b : Bundle) (fs : List String) : List String × Option String :=
  (fs.filter fun p => !(p == b.RootfsPath || p == b.TmpDir), none)

/-- What `cleanUp` reports: the retained bundle paths (no-cleanup mode) or
a removal failure. -/
inductive CleanUpEvent
  | infoBundlePaths (paths : List String)
  | removeError (msg : String)
deriving Repr, DecidableEq

/-- The bundle paths of a build, rootfs and temporary directory of each
stage in order, as `cleanUp` accumulates them. -/
def bundlePathsOf (b : Build) : List String :=
  b.stages.foldl (fun acc s => acc ++ [s.b.RootfsPath, s.b.TmpDir]) []

/-- One iteration of the removal loop of `cleanUp`: remove the stage's
bundle, logging (not returning) any removal error. -/
def cleanUpStep (acc : List String × List CleanUpEvent) (s : stage) :
    List String × List CleanUpEvent :=
  let res := s.b.Remove acc.1
  match res.2 with
  | none => (res.1, acc.2)
  | some e => (res.1, acc.2 ++ [CleanUpEvent.removeError ("Could not remove bundle: " ++ e)])

/-- `Build.cleanUp` from the source (second revision): with `NoCleanUp` set
it removes nothing and reports the bundle paths; otherwise it removes each
stage's bundle in order. Takes and returns the filesystem state; the
second component is the log. -/
def Build.cleanUp (b : Build) (fs : List String) : List String × List CleanUpEvent :=
  if b.Conf.NoCleanUp then
    (fs, [CleanUpEvent.infoBundlePaths (bundlePathsOf b)])
  else
    b.stages.foldl cleanUpStep (fs, [])

/-! ### Stage lookup and cross-stage file copy (metadata.go lines 645–697) -/

/-- Linear search of `Build.findStageIndex`, carrying the index. -/
def findStageIndexAux (name : String) : List stage → Nat → Except String Nat
  | [], _ => .error ("stage " ++ name ++ " was not found")
  | s :: rest, i => if name = s.name then .ok i else findStageIndexAux name rest (i + 1)

/-- `Build.findStageIndex` from the source: first stage whose name matches,
else the "stage ... was not found" error. -/
def Build.findStageIndex (b : Build) (name : String) : Except String Nat :=
  findStageIndexAux name b.stages 0

/-- Splits a character list around runs of separator characters, keeping
the non-empty runs in between; `acc` holds the current run reversed. -/
def fieldsAux (p : Char → Bool) : List Char → List Char → List (List Char)
  | acc, [] => if acc.isEmpty then [] else [acc.reverse]
  | acc, c :: cs =>
    if p c then
      if acc.isEmpty then fieldsAux p [] cs
      else acc.reverse :: fieldsAux p [] cs
    else fieldsAux p (c :: acc) cs

/-- Go's `strings.Fields` on ASCII whitespace: the maximal runs of
non-space characters. -/
def stringFields (s : String) : List String :=
  (fieldsAux (fun c => c = ' ' || c = '\t' || c = '\n' || c = '\r') [] s.data).map
    fun l => String.mk l

/-- Modelled from the spec: `files.AddPrefix` is not part of the sources;
every supplied path is "rooted at the owning stage's bundle path", so the
bundle root is prepended. -/
def addPrefixed (base path : String) : String :=
  base ++ "/" ++ path

/-- A performed file copy: which directive (by position in the recipe) it
came from and the prefixed source and destination paths. -/
structure CopyEvent where
  directive : Nat
  src : String
  dst : String
deriving Repr, DecidableEq

/-- The transfer loop of `copyFiles` for one directive `j`: skip transfers
with an empty source (warning only), default the destination to the
source, prefix both paths with the owning bundle roots, and stop at the
first failing copy. `copyEnv` is the outcome of `files.Copy`. -/
def runTransfers (destRoot srcRoot : String) (copyEnv : String → String → Option String)
    (j : Nat) : List FileTransfer → Except String Unit × List CopyEvent
  | [] => (.ok (), [])
  | t :: rest =>
    if t.Src = "" then runTransfers destRoot srcRoot copyEnv j rest
    else
      let dst := if t.Dst = "" then t.Src else t.Dst
      let src' := addPrefixed srcRoot t.Src
      let dst' := addPrefixed destRoot dst
      match copyEnv src' dst' with
      | some e => (.error e, [])
      | none =>
        let r := runTransfers destRoot srcRoot copyEnv j rest
        (r.1, ⟨j, src', dst'⟩ :: r.2)

/-- The directive loop of `stage.copyFiles`, carrying the directive index:
directives with an empty argument string or an argument count other than
two are skipped; otherwise the named source stage is resolved (an unknown
name aborts before any transfer of that directive) and the transfers run. -/
def copyFilesAux (b : Build) (destRoot : String) (copyEnv : String → String → Option String) :
    List FilesDirective → Nat → Except String Unit × List CopyEvent
  | [], _ => (.ok (), [])
  | f :: rest, j =>
    if f.Args = "" then copyFilesAux b destRoot copyEnv rest (j + 1)
    else
      let args := stringFields f.Args
      if args.length = 2 then
        match b.findStageIndex (args.getD 1 "") with
        | .error e => (.error e, [])
        | .ok idx =>
          let srcRoot := ((b.stages.get? idx).map fun st => st.b.RootfsPath).getD ""
          let r := runTransfers destRoot srcRoot copyEnv j f.Files
          match r.1 with
          | .error e => (.error e, r.2)
          | .ok _ =>
            let r2 := copyFilesAux b destRoot copyEnv rest (j + 1)
            (r2.1, r.2 ++ r2.2)
      else copyFilesAux b destRoot copyEnv rest (j + 1)

/-- `stage.copyFiles` from the source: walk the recipe's files directives
copying into this stage's rootfs. -/
def stage.copyFiles (s : stage) (b : Build) (copyEnv : String → String → Option String) :
    Except String Unit × List CopyEvent :=
  copyFilesAux b s.b.RootfsPath copyEnv s.b.Recipe.BuildData.Files 0

/-! ### The stage loop of `Build.Full` (metadata.go lines 416–535) -/

/-- `engineRequired` from the source: the definition requests script
execution or file copies. -/
def engineRequired (d : Definition) : Bool :=
  (d.BuildData.Post.Script != "") || (d.BuildData.Setup.Script != "") ||
    (d.BuildData.Test.Script != "") || (d.BuildData.Files.length != 0)

/-- The privilege error `runBuildEngine` returns for a non-root caller. -/
def nonRootErr : String :=
  "attempted to build with scripts as non-root user or without --fakeroot"

/-- Observable actions of one run of `Build.Full`, tagged with the stage
index: host-side pre-script execution, extraction of the destination image
(update mode), conveyor fetch and packer pack, app-section handling,
cross-stage file copy, execution of the build scripts by the engine,
script insertion, final assembly, and the deferred cleanup invocation. -/
inductive BuildEvent
  | preScript (i : Nat)
  | extractDest (i : Nat)
  | conveyorGet (i : Nat)
  | packerPack (i : Nat)
  | handleApps (i : Nat)
  | copyFiles (i : Nat)
  | engineScripts (i : Nat)
  | insertScripts (i : Nat)
  | assemble
  | cleanUpRun
deriving Repr, DecidableEq

/-- Outcomes of the external calls one stage iteration of `Full` makes. -/
structure StageEnv where
  preScript : Option String
  getLocalPacker : Option String
  localPack : Option String
  conveyorGet : Option String
  packerPack : Option String
  handleBundle : Option String
  runFilesSection : Bool
  copyFilesRes : Option String
  engineExec : Option String
  insertScripts : Option String
deriving Repr

/-- Whether every fallible call of a stage environment succeeds. -/
def StageEnv.allOk (env : StageEnv) : Bool :=
  env.preScript.isNone && env.getLocalPacker.isNone && env.localPack.isNone &&
    env.conveyorGet.isNone && env.packerPack.isNone && env.handleBundle.isNone &&
    env.copyFilesRes.isNone && env.insertScripts.isNone

/-- Sequencing with early exit, accumulating events: the source's pattern
of `if err != nil { return err }` after each step. -/
def andThen (r : Option String × List BuildEvent) (k : Unit → Option String × List BuildEvent) :
    Option String × List BuildEvent :=
  match r.1 with
  | some e => (some e, r.2)
  | none =>
    let r2 := k ()
    (r2.1, r.2 ++ r2.2)

/-- Modelled from the spec: `stage.runPreScript` is not part of the
sources; the sequencer must "run any pre-script" on the host before the
fetch, so a non-empty `%pre` body is executed (emitting its event) and its
failure is returned as-is. -/
def stagePre (i : Nat) (st : stage) (env : StageEnv) : Option String × List BuildEvent :=
  if st.b.Recipe.BuildData.Pre.Script ≠ "" then
    match env.preScript with
    | some e => (some e, [BuildEvent.preScript i])
    | none => (none, [BuildEvent.preScript i])
  else (none, [])

/-- The fetch step of stage `i` of `n` from the source: with update set,
force unset and `i` the last stage, extract the destination image into the
bundle (`GetLocalPacker` then `Pack`, errors returned as-is); otherwise a
nil image cache is the fatal "undefined image cache" error, and then the
conveyor's `Get` and `Pack` run with their errors wrapped. -/
def stageFetch (conf : Config) (n i : Nat) (env : StageEnv) :
    Option String × List BuildEvent :=
  if conf.Opts.Update && !conf.Opts.Force && (i == n - 1) then
    match env.getLocalPacker with
    | some e => (some e, [BuildEvent.extractDest i])
    | none =>
      match env.localPack with
      | some e => (some e, [BuildEvent.extractDest i])
      | none => (none, [BuildEvent.extractDest i])
  else
    match conf.Opts.ImgCache with
    | none => (some "undefined image cache", [])
    | some _ =>
      match env.conveyorGet with
      | some e => (some ("conveyor failed to get: " ++ e), [BuildEvent.conveyorGet i])
      | none =>
        match env.packerPack with
        | some e =>
            (some ("packer failed to pack: " ++ e),
             [BuildEvent.conveyorGet i, BuildEvent.packerPack i])
        | none => (none, [BuildEvent.conveyorGet i, BuildEvent.packerPack i])

/-- The app-section step from the source: `HandleBundle` failure is wrapped
as a "failed while creating app" error (the post-script append
`HandlePost` has no observable failure). -/
def stageApps (i : Nat) (env : StageEnv) : Option String × List BuildEvent :=
  match env.handleBundle with
  | some e => (some ("failed while creating app: " ++ e), [BuildEvent.handleApps i])
  | none => (none, [BuildEvent.handleApps i])

/-- The cross-stage copy step from the source: run only when the "files"
section is selected; its failure is wrapped. -/
def stageCopyFiles (i : Nat) (env : StageEnv) : Option String × List BuildEvent :=
  if env.runFilesSection then
    match env.copyFilesRes with
    | some e =>
        (some ("unable to copy files a stage to container fs: " ++ e), [BuildEvent.copyFiles i])
    | none => (none, [BuildEvent.copyFiles i])
  else (none, [])

/-- The engine step from the source: run only when `engineRequired`; a
non-root caller gets the privilege error from `runBuildEngine` before the
engine (and hence any setup/post/test script) starts, wrapped by `Full` as
a "while running engine" error; with root the engine executes the build
scripts inside the bundle. -/
def stageEngine (uid : Nat) (i : Nat) (st : stage) (env : StageEnv) :
    Option String × List BuildEvent :=
  if engineRequired st.b.Recipe then
    if uid ≠ 0 then
      (some ("while running engine: " ++ nonRootErr), [])
    else
      match env.engineExec with
      | some e => (some ("while running engine: " ++ e), [BuildEvent.engineScripts i])
      | none => (none, [BuildEvent.engineScripts i])
  else (none, [])

/-- The script-insertion step from the source (`stage.insertScripts` is an
external collaborator; it writes script files into the bundle and executes
nothing). -/
def stageInsert (i : Nat) (env : StageEnv) : Option String × List BuildEvent :=
  match env.insertScripts with
  | some e => (some ("while inserting scripts to bundle: " ++ e), [BuildEvent.insertScripts i])
  | none => (none, [BuildEvent.insertScripts i])

/-- One iteration of the stage loop of `Build.Full`, in source order. -/
def runStage (conf : Config) (uid n i : Nat) (st : stage) (env : StageEnv) :
    Option String × List BuildEvent :=
  andThen (stagePre i st env) fun _ =>
  andThen (stageFetch conf n i env) fun _ =>
  andThen (stageApps i env) fun _ =>
  andThen (stageCopyFiles i env) fun _ =>
  andThen (stageEngine uid i st env) fun _ =>
  stageInsert i env

/-- The stage loop: stages run strictly in order, the first error aborts
the loop. -/
def runStages (conf : Config) (uid n : Nat) :
    List (stage × StageEnv) → Nat → Option String × List BuildEvent
  | [], _ => (none, [])
  | (st, env) :: rest, i =>
    andThen (runStage conf uid n i st env) fun _ => runStages conf uid n rest (i + 1)

/-- Outcomes of the post-loop calls of `Full`: app-label unmarshalling and
the final assembly. -/
structure FullEnv where
  stageEnvs : List StageEnv
  appLabels : Option String
  assembleRes : Option String

/-- `Build.Full` from the source (second revision): run the stage loop,
then aggregate labels and assemble the last stage; the deferred `cleanUp`
invocation runs on every exit path, so every trace ends with it. The
label-map writes themselves are pure bookkeeping with no observable action
besides the possible unmarshalling error. -/
def Build.Full (b : Build) (env : FullEnv) (uid : Nat) : Option String × List BuildEvent :=
  let r := runStages b.Conf uid b.stages.length (b.stages.zip env.stageEnvs) 0
  match r.1 with
  | some e => (some e, r.2 ++ [BuildEvent.cleanUpRun])
  | none =>
    match env.appLabels with
    | some e =>
        (some ("unable to unmarshal json from app: " ++ e), r.2 ++ [BuildEvent.cleanUpRun])
    | none =>
      match env.assembleRes with
      | some e => (some e, r.2 ++ [BuildEvent.assemble, BuildEvent.cleanUpRun])
      | none => (none, r.2 ++ [BuildEvent.assemble, BuildEvent.cleanUpRun])

/-! ### Pipeline construction (`newBuild`, metadata.go lines 249–325) -/

/-- Outcomes of the external calls `newBuild` makes: the path-library
`filepath.Clean`, bundle creation per stage index (plain or encrypted),
the conveyor-packer dispatch of this revision (`conveyorPacker`, not part
of the sources), and the squashfs probing for the SIF assembler. -/
structure NewBuildEnv where
  clean : String → String
  newBundle : Nat → Except String Bundle
  newEncryptedBundle : Nat → Except String Bundle
  conveyorPacker : Definition → Except String ConveyorPacker
  mksquashfsPath : Except String String
  ensureGzipComp : Except String Bool

/-- The stage-construction loop of `newBuild`: a nil header map is the
fatal "multiple stages detected" error; the bundle is created (encrypted
when key info is present), the stage is named from the `stage` header key,
and a conveyor-packer is obtained unless bootstrap is skipped
(update without force). -/
def buildStages (conf : Config) (env : NewBuildEnv) :
    List Definition → Nat → Except String (List stage)
  | [], _ => .ok []
  | d :: rest, i =>
    if d.Header = none then .error "multiple stages detected, all must have headers"
    else
      match (if conf.Opts.EncryptionKeyInfo.isSome
             then env.newEncryptedBundle i else env.newBundle i) with
      | .error e => .error e
      | .ok b0 =>
        let s0 : stage :=
          { name := headerGet d.Header "stage",
            b := { b0 with Recipe := d, Opts := conf.Opts },
            c := none, a := none }
        if !conf.Opts.Update || conf.Opts.Force then
          match env.conveyorPacker d with
          | .error e => .error ("unable to get conveyorpacker: " ++ e)
          | .ok c =>
            match buildStages conf env rest (i + 1) with
            | .error e => .error e
            | .ok ss => .ok ({ s0 with c := some c } :: ss)
        else
          match buildStages conf env rest (i + 1) with
          | .error e => .error e
          | .ok ss => .ok (s0 :: ss)

/-- Sets the assembler of the last stage, as `b.stages[lastStageIndex].a = ...`. -/
def setLastAssembler (a : Assembler) : List stage → List stage
  | [] => []
  | [s] => [{ s with a := some a }]
  | s :: rest => s :: setLastAssembler a rest

/-- The configuration after the prologue of `newBuild`: the destination is
cleaned, and the format is forced to "sandbox" whenever the update option
is set — before any stage is constructed. -/
def confEffective (conf : Config) (env : NewBuildEnv) : Config :=
  let conf1 := { conf with Dest := env.clean conf.Dest }
  if conf1.Opts.Update then { conf1 with Format := "sandbox" } else conf1

/-- The assembler-selection epilogue of `newBuild`: a switch on the output
format installing the sandbox or SIF assembler on the last stage. Indexing
the last stage of an empty stage list would panic in the source, modelled
as an error. -/
def selectAssembler (conf : Config) (env : NewBuildEnv) (stages : List stage) :
    Except String Build :=
  if stages.isEmpty then .error "panic: index out of range"
  else if conf.Format = "sandbox" then
    .ok { stages := setLastAssembler Assembler.SandboxAssembler stages, Conf := conf }
  else if conf.Format = "sif" then
    match env.mksquashfsPath with
    | .error e => .error ("while searching for mksquashfs: " ++ e)
    | .ok mk =>
      match env.ensureGzipComp with
      | .error e => .error ("while ensuring correct compression algorithm: " ++ e)
      | .ok flag =>
        .ok { stages := setLastAssembler (Assembler.SIFAssembler flag mk) stages,
              Conf := conf }
  else .error ("unrecognized output format " ++ conf.Format)

/-- `newBuild` from the source (second revision): the prologue
(`confEffective`), the stage-construction loop, then the assembler
selection for the last stage. -/
def newBuild (defs : List Definition) (conf : Config) (env : NewBuildEnv) :
    Except String Build :=
  match buildStages (confEffective conf env) env defs 0 with
  | .error e => .error e
  | .ok stages => selectAssembler (confEffective conf env) env stages

/-! ### Concrete inputs used by witnesses and counterexamples -/

/-- Build data with all sections empty. -/
def emptyBuildData : BuildData :=
  { Pre := ⟨""⟩, Setup := ⟨""⟩, Post := ⟨""⟩, Test := ⟨""⟩, Files := [] }

/-- A definition whose header carries only the given bootstrap key. -/
def defWithBootstrap (key : String) : Definition :=
  { Header := some [("bootstrap", key)], BuildData := emptyBuildData }

/-- Whether a path belongs to one of the given stages' bundles. -/
def isStagePath (ss : List stage) (p : String) : Bool :=
  ss.any fun s => p == s.b.RootfsPath || p == s.b.TmpDir

/-- The filesystem with every stage bundle path removed. -/
def removeStagePaths (ss : List stage) (fs : List String) : List String :=
  fs.filter fun p => !(isStagePath ss p)

/-- Default build options for concrete inputs. -/
def optsW : Options :=
  { Update := false, Force := false, ImgCache := some (), TmpDir := "/tmp",
    EncryptionKeyInfo := none }

/-- A concrete stage whose bundle lives at "r" and "t". -/
def stageW : stage :=
  { name := "",
    b := { RootfsPath := "r", TmpDir := "t", Recipe := defWithBootstrap "scratch",
           Opts := optsW },
    c := some .ScratchConveyorPacker, a := some .SandboxAssembler }

/-- A concrete single-stage build around `stageW`. -/
def buildW : Build :=
  { stages := [stageW],
    Conf := { Dest := "/out", Format := "sandbox", NoCleanUp := false, Opts := optsW } }

/-- The same build with the no-cleanup option set. -/
def buildWNoClean : Build :=
  { buildW with
    Conf := { Dest := "/out", Format := "sandbox", NoCleanUp := true, Opts := optsW } }

/-- A definition for a stage "B" whose only files directive names the
nonexistent source stage "C". -/
def defStageB : Definition :=
  { Header := some [("bootstrap", "scratch"), ("stage", "B")],
    BuildData :=
      { Pre := ⟨""⟩, Setup := ⟨""⟩, Post := ⟨""⟩, Test := ⟨""⟩,
        Files := [{ Args := "from C", Files := [{ Src := "/etc/hosts", Dst := "/hosts" }] }] } }

/-- Stage "A" of the two-stage counter-scenario. -/
def stageA : stage :=
  { name := "A",
    b := { RootfsPath := "/ra", TmpDir := "/ta", Recipe := defWithBootstrap "scratch",
           Opts := optsW },
    c := some .ScratchConveyorPacker, a := none }

/-- Stage "B", carrying the directive that names the missing stage "C". -/
def stageB : stage :=
  { name := "B",
    b := { RootfsPath := "/rb", TmpDir := "/tb", Recipe := defStageB, Opts := optsW },
    c := some .ScratchConveyorPacker, a := some .SandboxAssembler }

/-- The two-stage build with stages "A" and "B" and no stage "C". -/
def buildAB : Build :=
  { stages := [stageA, stageB],
    Conf := { Dest := "/out", Format := "sandbox", NoCleanUp := false, Opts := optsW } }

/-- A stage environment in which every external call succeeds. -/
def envOkW : StageEnv :=
  { preScript := none, getLocalPacker := none, localPack := none, conveyorGet := none,
    packerPack := none, handleBundle := none, runFilesSection := false, copyFilesRes := none,
    engineExec := none, insertScripts := none }

/-- A configuration requesting an in-place update (force unset). -/
def confUpd : Config :=
  { Dest := "/out", Format := "sandbox", NoCleanUp := false,
    Opts := { Update := true, Force := false, ImgCache := none, TmpDir := "/tmp",
              EncryptionKeyInfo := none } }

/-- A regular build configuration with no image cache handle. -/
def confNoCache : Config :=
  { Dest := "/out", Format := "sandbox", NoCleanUp := false,
    Opts := { Update := false, Force := false, ImgCache := none, TmpDir := "/tmp",
              EncryptionKeyInfo := none } }

/-- A single-stage definition with a pre-script and a post script
(`bootstrap=scratch`). -/
def defPrePost : Definition :=
  { Header := some [("bootstrap", "scratch")],
    BuildData :=
      { Pre := ⟨"echo pre"⟩, Setup := ⟨""⟩, Post := ⟨"touch /built"⟩, Test := ⟨""⟩,
        Files := [] } }

/-- The stage holding `defPrePost`. -/
def stagePP : stage :=
  { name := "",
    b := { RootfsPath := "/r", TmpDir := "/t", Recipe := defPrePost, Opts := optsW },
    c := some .ScratchConveyorPacker, a := some .SandboxAssembler }

/-- A single-stage build around `stagePP`. -/
def buildPP : Build :=
  { stages := [stagePP],
    Conf := { Dest := "/out", Format := "sandbox", NoCleanUp := false, Opts := optsW } }

/-- A run environment for `buildPP` in which every external call succeeds. -/
def fullEnvW : FullEnv :=
  { stageEnvs := [envOkW], appLabels := none, assembleRes := none }

/-- A `newBuild` environment in which every external call succeeds. -/
def nbEnvW : NewBuildEnv :=
  { clean := fun p => p,
    newBundle := fun _ =>
      .ok { RootfsPath := "/rootfs", TmpDir := "/tmp/b", Recipe := defWithBootstrap "scratch",
            Opts := optsW },
    newEncryptedBundle := fun _ =>
      .ok { RootfsPath := "/rootfs", TmpDir := "/tmp/b", Recipe := defWithBootstrap "scratch",
            Opts := optsW },
    conveyorPacker := fun _ => .ok .ScratchConveyorPacker,
    mksquashfsPath := .ok "/usr/bin/mksquashfs",
    ensureGzipComp := .ok false }

/-- Two definitions carrying non-nil headers but no stage names. -/
def defsNoStage : List Definition :=
  [defWithBootstrap "scratch", defWithBootstrap "busybox"]

/-- A plain sandbox configuration. -/
def confSandbox : Config :=
  { Dest := "/out", Format := "sandbox", NoCleanUp := false, Opts := optsW }

/-- A configuration requesting the SIF format together with the update
option. -/
def confUpdSif : Config :=
  { Dest := "/out.sif", Format := "sif", NoCleanUp := false,
    Opts := { Update := true, Force := false, ImgCache := some (), TmpDir := "/tmp",
              EncryptionKeyInfo := none } }

/-- A definition with a nil header map. -/
def defNilHeader : Definition :=
  { Header := none, BuildData := emptyBuildData }

/-! ## Theorems -/

/-- Claim C2: the privileged Chroot operation performs, in order: open and
hold a descriptor to the current root; change directory to the new root;
pivot_root with old and new location coinciding at "."; (change directory
back into the held old root and) apply recursive slave mount propagation to
the host's root; lazily unmount (detach) the old root; change directory to
"/"; and if any step fails, it returns an error identifying that step and
executes no later step. Stated as: the source function equals the
spec-derived reference `chrootSpec`, which runs `chrootOrder` aborting at
the first failing step with that step's own error message. -/
theorem chroot_ordered_abort_on_first_failure (root : String) (env : ChrootEnv) :
    Methods.Chroot root env = chrootSpec root env := by
  rcases env with ⟨o1, o2, o3, o4, o5, o6, o7⟩
  cases o1 <;> cases o2 <;> cases o3 <;> cases o4 <;> cases o5 <;> cases o6 <;> cases o7 <;> rfl

/-- Claim C6: for every supported bootstrap key, `getcp` returns the variant
for that key; for the empty key it fails with "no bootstrap specification
found"; for any other key it fails with a configuration error naming the
offending key; and it performs no filesystem I/O (its operation list is
empty on every path, failure cases included). -/
theorem getcp_dispatch (d : Definition) (url tok : String) (unauth : Bool) :
    (getcp d url tok unauth).2 = [] ∧
    (headerGet d.Header "bootstrap" = "library" →
      (getcp d url tok unauth).1 = .ok (.LibraryConveyorPacker unauth)) ∧
    (headerGet d.Header "bootstrap" = "shub" →
      (getcp d url tok unauth).1 = .ok .ShubConveyorPacker) ∧
    (headerGet d.Header "bootstrap" = "docker" →
      (getcp d url tok unauth).1 = .ok .OCIConveyorPacker) ∧
    (headerGet d.Header "bootstrap" = "docker-archive" →
      (getcp d url tok unauth).1 = .ok .OCIConveyorPacker) ∧
    (headerGet d.Header "bootstrap" = "docker-daemon" →
      (getcp d url tok unauth).1 = .ok .OCIConveyorPacker) ∧
    (headerGet d.Header "bootstrap" = "oci" →
      (getcp d url tok unauth).1 = .ok .OCIConveyorPacker) ∧
    (headerGet d.Header "bootstrap" = "oci-archive" →
      (getcp d url tok unauth).1 = .ok .OCIConveyorPacker) ∧
    (headerGet d.Header "bootstrap" = "busybox" →
      (getcp d url tok unauth).1 = .ok .BusyBoxConveyorPacker) ∧
    (headerGet d.Header "bootstrap" = "debootstrap" →
      (getcp d url tok unauth).1 = .ok .DebootstrapConveyorPacker) ∧
    (headerGet d.Header "bootstrap" = "arch" →
      (getcp d url tok unauth).1 = .ok .ArchConveyorPacker) ∧
    (headerGet d.Header "bootstrap" = "localimage" →
      (getcp d url tok unauth).1 = .ok .LocalConveyorPacker) ∧
    (headerGet d.Header "bootstrap" = "yum" →
      (getcp d url tok unauth).1 = .ok .YumConveyorPacker) ∧
    (headerGet d.Header "bootstrap" = "zypper" →
      (getcp d url tok unauth).1 = .ok .ZypperConveyorPacker) ∧
    (headerGet d.Header "bootstrap" = "scratch" →
      (getcp d url tok unauth).1 = .ok .ScratchConveyorPacker) ∧
    (headerGet d.Header "bootstrap" = "" →
      (getcp d url tok unauth).1 = .error "no bootstrap specification found") ∧
    (headerGet d.Header "bootstrap" ∉ supportedBootstrapKeys →
      headerGet d.Header "bootstrap" ≠ "" →
      (getcp d url tok unauth).1 =
        .error ("invalid build source " ++ headerGet d.Header "bootstrap")) := by
  refine ⟨rfl, ?_, ?_, ?_, ?_, ?_, ?_, ?_, ?_, ?_, ?_, ?_, ?_, ?_, ?_, ?_, ?_⟩
  case _ => intro h; simp [getcp, h]
  case _ => intro h; simp [getcp, h]
  case _ => intro h; simp [getcp, h]
  case _ => intro h; simp [getcp, h]
  case _ => intro h; simp [getcp, h]
  case _ => intro h; simp [getcp, h]
  case _ => intro h; simp [getcp, h]
  case _ => intro h; simp [getcp, h]
  case _ => intro h; simp [getcp, h]
  case _ => intro h; simp [getcp, h]
  case _ => intro h; simp [getcp, h]
  case _ => intro h; simp [getcp, h]
  case _ => intro h; simp [getcp, h]
  case _ => intro h; simp [getcp, h]
  case _ => intro h; simp [getcp, h]
  case _ =>
    intro h1 h2
    simp only [supportedBootstrapKeys, List.mem_cons, List.not_mem_nil, or_false,
      not_or] at h1
    obtain ⟨n1, n2, n3, n4, n5, n6, n7, n8, n9, n10, n11, n12, n13, n14⟩ := h1
    simp [getcp, n1, n2, n3, n4, n5, n6, n7, n8, n9, n10, n11, n12, n13, n14, h2]

/-- Witness for C6: concrete dispatches — a supported key, the empty key,
and an unsupported key. -/
theorem getcp_dispatch_witness :
    (getcp (defWithBootstrap "library") "" "" true).1 =
        .ok (.LibraryConveyorPacker true) ∧
    (getcp (defWithBootstrap "") "" "" true).1 =
        .error "no bootstrap specification found" ∧
    (getcp (defWithBootstrap "caravan") "" "" true).1 =
        .error "invalid build source caravan" :=
  ⟨(getcp_dispatch (defWithBootstrap "library") "" "" true).2.1 rfl,
   (getcp_dispatch (defWithBootstrap "") "" "" true).2.2.2.2.2.2.2.2.2.2.2.2.2.2.2.1 rfl,
   (getcp_dispatch (defWithBootstrap "caravan") "" "" true).2.2.2.2.2.2.2.2.2.2.2.2.2.2.2.2
     (by decide) (by decide)⟩

/-- Counterexample to claim C7 as stated: the claim says `Delete` continues
through the remaining steps even if an earlier step fails, surfacing the
first error. On a writable bundle whose overlay removal fails, the source
returns at once: the unmount and the bundle-directory removal are never
attempted. -/
theorem delete_aborts_on_overlay_failure :
    (sifBundle.Delete ⟨"img.sif", "/tmp/bundle", true⟩
        ⟨some "overlay busy", none, none⟩).1.isSome = true ∧
    DeleteStep.unmountRootfs ∉
      (sifBundle.Delete ⟨"img.sif", "/tmp/bundle", true⟩
        ⟨some "overlay busy", none, none⟩).2 ∧
    DeleteStep.deleteBundleDir ∉
      (sifBundle.Delete ⟨"img.sif", "/tmp/bundle", true⟩
        ⟨some "overlay busy", none, none⟩).2 := by
  refine ⟨rfl, ?_, ?_⟩ <;> decide

/-- Claim C7, amended: `Delete` reverses creation — removing the overlay
exactly when writable was requested, then unmounting the root filesystem
with detach semantics, then removing the bundle directory — always
attempting overlay teardown before the unmount; but it stops at the first
failing step, returning that step's error without attempting any later
step (rather than continuing through the remaining steps). Stated as: the
source function equals the reference `deleteSpec`, which attempts
`deleteSteps` in order and aborts at the first failure with that step's
error. -/
theorem delete_ordered_abort_on_first_failure (s : SifBundle) (env : DeleteEnv) :
    sifBundle.Delete s env = deleteSpec s env := by
  rcases env with ⟨o1, o2, o3⟩
  rcases s with ⟨img, path, w⟩
  cases w <;> cases o1 <;> cases o2 <;> cases o3 <;>
    simp [sifBundle.Delete, deleteSpec, deleteSteps, DeleteEnv.result, deleteStepErr]

/-- Claim C8: whenever `Create` returns an error after partial setup
(loop-attach failure, mount failure, or overlay-creation failure — and in
fact on every error path), every resource acquired up to the failure point
has been torn down before the error is returned: the final resource state
is empty (no bundle directory, no mount, no loop attachment, no overlay
referencing the bundle path), and the teardown calls are ordered with the
unmount attempted before the bundle-directory removal. The loop
attachment's release follows the spec's lifetime rule embedded in
`releaseUnmountedLoop` (its acquisition is in `tools`, outside the
sources). -/
theorem create_error_leaves_no_residual_resources (s : SifBundle) (env : CreateEnv) :
    ((sifBundle.Create s env).1.isSome = true →
      (sifBundle.Create s env).2.1 = Resources.clear) ∧
    teardownOrdered (sifBundle.Create s env).2.2 = true := by
  rcases env with ⟨o1, o2, o3, o4, o5, o6, o7, o8⟩
  rcases s with ⟨img, path, w⟩
  cases o1 <;> cases o2 <;> cases o3 <;> cases o4 <;> cases o5 <;> cases o6 <;>
    cases o7 <;> cases o8 <;> cases w <;>
    (simp only [sifBundle.Create]
     split_ifs <;> simp [Resources.clear, releaseUnmountedLoop, teardownOrdered])

/-- Witness for C8: a concrete mount failure — `Create` errs and the final
resource state is empty. -/
theorem create_error_witness :
    (sifBundle.Create ⟨"img.sif", "/tmp/bundle", true⟩
        ⟨none, none, none, .ok .FsSquash, none, .ok "/dev/loop7", some "mount failed",
         none⟩).1.isSome = true ∧
    (sifBundle.Create ⟨"img.sif", "/tmp/bundle", true⟩
        ⟨none, none, none, .ok .FsSquash, none, .ok "/dev/loop7", some "mount failed",
         none⟩).2.1 = Resources.clear :=
  ⟨rfl,
   (create_error_leaves_no_residual_resources ⟨"img.sif", "/tmp/bundle", true⟩
      ⟨none, none, none, .ok .FsSquash, none, .ok "/dev/loop7", some "mount failed",
       none⟩).1 rfl⟩

/-- The removal loop of `cleanUp` computes `removeStagePaths` and, since the
modelled removal of a (possibly already absent) tree returns a nil error,
logs nothing. -/
theorem cleanUpFold_eq (ss : List stage) (fs : List String) (logs : List CleanUpEvent) :
    ss.foldl cleanUpStep (fs, logs) = (removeStagePaths ss fs, logs) := by
  induction ss generalizing fs with
  | nil => simp [removeStagePaths, isStagePath]
  | cons s rest ih =>
    rw [List.foldl_cons]
    have hstep :
        cleanUpStep (fs, logs) s =
          ((fs.filter fun p => !(p == s.b.RootfsPath || p == s.b.TmpDir)), logs) := rfl
    rw [hstep, ih]
    simp only [removeStagePaths, isStagePath, List.filter_filter, List.any_cons]
    congr 1
    apply List.filter_congr
    intro p _
    cases hp : (p == s.b.RootfsPath || p == s.b.TmpDir) <;> simp [hp]

/-- A stage's own bundle paths satisfy `isStagePath`. -/
theorem isStagePath_rootfs (ss : List stage) (s : stage) (hs : s ∈ ss) :
    isStagePath ss s.b.RootfsPath = true := by
  simp only [isStagePath, List.any_eq_true]
  exact ⟨s, hs, by simp⟩

/-- A stage's own temporary directory satisfies `isStagePath`. -/
theorem isStagePath_tmp (ss : List stage) (s : stage) (hs : s ∈ ss) :
    isStagePath ss s.b.TmpDir = true := by
  simp only [isStagePath, List.any_eq_true]
  exact ⟨s, hs, by simp⟩

/-- Removing the stage paths twice is the same as removing them once. -/
theorem removeStagePaths_idem (ss : List stage) (fs : List String) :
    removeStagePaths ss (removeStagePaths ss fs) = removeStagePaths ss fs := by
  simp only [removeStagePaths, List.filter_filter]
  apply List.filter_congr
  intro p _
  cases hp : isStagePath ss p <;> simp [hp]

/-- Claim C1: invoking `cleanUp` twice in sequence removes each stage
bundle's working directory exactly once — the first invocation removes
every stage's rootfs and temporary directory, and the second invocation
changes nothing and reports no error; when the no-cleanup option is set,
no removal is performed at all and the bundle paths are reported instead. -/
theorem cleanup_twice_removes_once_nocleanup_reports (b : Build) (fs : List String) :
    (b.Conf.NoCleanUp = false →
      (∀ s ∈ b.stages,
        s.b.RootfsPath ∉ (b.cleanUp fs).1 ∧ s.b.TmpDir ∉ (b.cleanUp fs).1) ∧
      b.cleanUp ((b.cleanUp fs).1) = ((b.cleanUp fs).1, []) ∧
      (b.cleanUp fs).2 = []) ∧
    (b.Conf.NoCleanUp = true →
      b.cleanUp fs = (fs, [CleanUpEvent.infoBundlePaths (bundlePathsOf b)])) := by
  constructor
  · intro hnc
    have hrun : ∀ g, b.cleanUp g = (removeStagePaths b.stages g, []) := by
      intro g
      simp only [Build.cleanUp, hnc, Bool.false_eq_true, if_false]
      exact cleanUpFold_eq b.stages g []
    refine ⟨?_, ?_, ?_⟩
    · intro s hs
      rw [hrun fs]
      constructor
      · intro hmem
        have := (List.mem_filter.mp hmem).2
        rw [isStagePath_rootfs b.stages s hs] at this
        simp at this
      · intro hmem
        have := (List.mem_filter.mp hmem).2
        rw [isStagePath_tmp b.stages s hs] at this
        simp at this
    · rw [hrun fs, hrun (removeStagePaths b.stages fs)]
      simp [removeStagePaths_idem]
    · rw [hrun fs]
  · intro hnc
    simp [Build.cleanUp, hnc]

/-- Witness for C1: on the concrete build, the first cleanup removes the
bundle paths, the second changes nothing and logs nothing; with no-cleanup
set the filesystem is untouched and the paths are reported. -/
theorem cleanup_twice_witness :
    ("r" ∉ (buildW.cleanUp ["r", "t", "keep"]).1 ∧
      buildW.cleanUp ((buildW.cleanUp ["r", "t", "keep"]).1) =
        ((buildW.cleanUp ["r", "t", "keep"]).1, [])) ∧
    buildWNoClean.cleanUp ["r", "t", "keep"] =
      (["r", "t", "keep"], [CleanUpEvent.infoBundlePaths (bundlePathsOf buildWNoClean)]) := by
  have h1 := (cleanup_twice_removes_once_nocleanup_reports buildW ["r", "t", "keep"]).1 rfl
  have h2 := (cleanup_twice_removes_once_nocleanup_reports buildWNoClean ["r", "t", "keep"]).2 rfl
  have hmem : stageW ∈ buildW.stages := by simp [buildW]
  exact ⟨⟨(h1.1 stageW hmem).1, h1.2.1⟩, h2⟩

/-- The linear search fails exactly with the "stage ... was not found"
error when no stage carries the searched name. -/
theorem findStageIndexAux_not_found (nm : String) (ss : List stage) (i : Nat)
    (h : ∀ st ∈ ss, st.name ≠ nm) :
    findStageIndexAux nm ss i = .error ("stage " ++ nm ++ " was not found") := by
  induction ss generalizing i with
  | nil => rfl
  | cons s rest ih =>
    have hs : ¬nm = s.name := fun he => h s (by simp) he.symm
    simp only [findStageIndexAux, if_neg hs]
    exact ih (i + 1) fun st hst => h st (by simp [hst])

/-- Any error of the linear search is the "stage ... was not found" error
for the searched name. -/
theorem findStageIndexAux_error_shape (nm : String) (ss : List stage) (i : Nat) (e : String)
    (h : findStageIndexAux nm ss i = .error e) :
    e = "stage " ++ nm ++ " was not found" := by
  induction ss generalizing i with
  | nil =>
    simp only [findStageIndexAux] at h
    exact (Except.error.injEq _ _).mp h.symm
  | cons s rest ih =>
    simp only [findStageIndexAux] at h
    by_cases hs : nm = s.name
    · rw [if_pos hs] at h; exact absurd h (by simp)
    · rw [if_neg hs] at h; exact ih (i + 1) h

/-- When every copy succeeds, the transfer loop of a directive succeeds. -/
theorem runTransfers_ok (destRoot srcRoot : String)
    (copyEnv : String → String → Option String) (j : Nat) (l : List FileTransfer)
    (hcopy : ∀ x y, copyEnv x y = none) :
    (runTransfers destRoot srcRoot copyEnv j l).1 = .ok () := by
  induction l with
  | nil => rfl
  | cons t rest ih =>
    simp only [runTransfers]
    by_cases hsrc : t.Src = ""
    · rw [if_pos hsrc]; exact ih
    · rw [if_neg hsrc]
      simp only [hcopy]
      exact ih

/-- Every copy performed by the transfer loop of directive `j` is tagged
with `j`. -/
theorem runTransfers_directive (destRoot srcRoot : String)
    (copyEnv : String → String → Option String) (j : Nat) (l : List FileTransfer) :
    ∀ e ∈ (runTransfers destRoot srcRoot copyEnv j l).2, e.directive = j := by
  induction l with
  | nil => intro e he; simp [runTransfers] at he
  | cons t rest ih =>
    intro e he
    simp only [runTransfers] at he
    by_cases hsrc : t.Src = ""
    · rw [if_pos hsrc] at he; exact ih e he
    · rw [if_neg hsrc] at he
      rcases hc : copyEnv (addPrefixed srcRoot t.Src)
          (addPrefixed destRoot (if t.Dst = "" then t.Src else t.Dst)) with _ | cv
      · rw [hc] at he
        simp only [List.mem_cons] at he
        rcases he with he | he
        · rw [he]
        · exact ih e he
      · rw [hc] at he; simp at he

/-- The directive loop on a list holding a directive with an unresolvable
source-stage name fails with a "stage ... was not found" error and copies
nothing from that directive. -/
theorem copyFilesAux_unknown_stage (b : Build) (destRoot : String)
    (copyEnv : String → String → Option String)
    (hcopy : ∀ x y, copyEnv x y = none) (l : List FilesDirective) :
    ∀ (j0 k : Nat) (f : FilesDirective) (a0 a1 : String),
      l.get? k = some f →
      stringFields f.Args = [a0, a1] →
      (∀ st ∈ b.stages, st.name ≠ a1) →
      (∃ nm, (copyFilesAux b destRoot copyEnv l j0).1 =
          .error ("stage " ++ nm ++ " was not found")) ∧
      ∀ e ∈ (copyFilesAux b destRoot copyEnv l j0).2, e.directive ≠ j0 + k := by
  induction l with
  | nil => intro j0 k f a0 a1 hget; simp at hget
  | cons g rest ih =>
    intro j0 k f a0 a1 hget hargs hmiss
    cases k with
    | zero =>
      rw [List.get?_cons_zero, Option.some.injEq] at hget
      subst hget
      have hA : ¬g.Args = "" := by
        intro h0
        rw [h0, show stringFields "" = [] from rfl] at hargs
        exact absurd hargs (by simp)
      have hidx : b.findStageIndex a1 = .error ("stage " ++ a1 ++ " was not found") :=
        findStageIndexAux_not_found a1 b.stages 0 hmiss
      refine ⟨⟨a1, ?_⟩, ?_⟩ <;> simp [copyFilesAux, hA, hargs, hidx]
    | succ k' =>
      rw [List.get?_cons_succ] at hget
      by_cases hA : g.Args = ""
      · simp only [copyFilesAux, if_pos hA]
        have := ih (j0 + 1) k' f a0 a1 hget hargs hmiss
        refine ⟨this.1, fun e he hcontra => this.2 e he ?_⟩
        omega
      · by_cases hL : (stringFields g.Args).length = 2
        · rcases hfi : b.findStageIndex ((stringFields g.Args).getD 1 "") with e | idx
          · simp only [copyFilesAux, if_neg hA, if_pos hL, hfi]
            have := findStageIndexAux_error_shape _ _ _ _ hfi
            exact ⟨⟨(stringFields g.Args).getD 1 "", by rw [this]⟩, by simp⟩
          · have hok := runTransfers_ok destRoot
              (((b.stages.get? idx).map fun st => st.b.RootfsPath).getD "") copyEnv j0
              g.Files hcopy
            have hdir := runTransfers_directive destRoot
              (((b.stages.get? idx).map fun st => st.b.RootfsPath).getD "") copyEnv j0
              g.Files
            have hrec := ih (j0 + 1) k' f a0 a1 hget hargs hmiss
            simp only [copyFilesAux, if_neg hA, if_pos hL, hfi, hok]
            refine ⟨hrec.1, ?_⟩
            intro e he
            simp only [List.mem_append] at he
            rcases he with he | he
            · have := hdir e he
              omega
            · intro hcontra
              exact hrec.2 e he (by omega)
        · simp only [copyFilesAux, if_neg hA, if_neg hL]
          have := ih (j0 + 1) k' f a0 a1 hget hargs hmiss
          refine ⟨this.1, fun e he hcontra => this.2 e he ?_⟩
          omega

/-- Claim C4: for every file-copy directive whose source-stage name matches
no stage of the build (the directive parses to exactly two fields, the
second naming the source stage), `copyFiles` fails with the
"stage ... was not found" error produced by the linear search
`findStageIndex`, and no file of that directive has been copied into the
current stage's bundle. Copies of the directives themselves succeeding is
assumed so that the stage-resolution error is the one surfaced. -/
theorem copyfiles_unknown_stage_fails_without_copying
    (b : Build) (s : stage) (copyEnv : String → String → Option String)
    (j : Nat) (f : FilesDirective) (a0 a1 : String)
    (hj : s.b.Recipe.BuildData.Files.get? j = some f)
    (hargs : stringFields f.Args = [a0, a1])
    (hmiss : ∀ st ∈ b.stages, st.name ≠ a1)
    (hcopy : ∀ x y, copyEnv x y = none) :
    (∃ nm, (s.copyFiles b copyEnv).1 = .error ("stage " ++ nm ++ " was not found")) ∧
    ∀ e ∈ (s.copyFiles b copyEnv).2, e.directive ≠ j := by
  have := copyFilesAux_unknown_stage b s.b.RootfsPath copyEnv hcopy
    s.b.Recipe.BuildData.Files 0 j f a0 a1 hj hargs hmiss
  refine ⟨this.1, fun e he hcontra => this.2 e he ?_⟩
  omega

/-- Witness for C4: in the two-stage build with stages "A" and "B", stage
B's directive naming the nonexistent stage "C" makes `copyFiles` fail with
the stage-not-found error and copy nothing from that directive. -/
theorem copyfiles_unknown_stage_witness :
    (∃ nm, (stageB.copyFiles buildAB (fun _ _ => none)).1 =
        .error ("stage " ++ nm ++ " was not found")) ∧
    ∀ e ∈ (stageB.copyFiles buildAB (fun _ _ => none)).2, e.directive ≠ 0 :=
  copyfiles_unknown_stage_fails_without_copying buildAB stageB (fun _ _ => none) 0
    { Args := "from C", Files := [{ Src := "/etc/hosts", Dst := "/hosts" }] }
    "from" "C" rfl rfl (by decide) (fun _ _ => rfl)

/-- Claim C3: during `Full`, a stage's conveyor fetch and pack are skipped
in favor of extracting the destination image into the bundle exactly when
the update option is set, the force option is not set, and the stage is
the last stage (`i == n - 1`): in that case the only fetch-phase action is
the extraction. In every other case a nil image cache handle is the fatal
"undefined image cache" error reported before any fetch action, and
otherwise fetch (`Get`) then pack run, in that order. -/
theorem full_update_skips_fetch_on_last_stage_only
    (conf : Config) (n i : Nat) (env : StageEnv) :
    ((conf.Opts.Update && !conf.Opts.Force && (i == n - 1)) = true →
      (stageFetch conf n i env).2.all (fun e => e == BuildEvent.extractDest i) = true ∧
      BuildEvent.extractDest i ∈ (stageFetch conf n i env).2) ∧
    ((conf.Opts.Update && !conf.Opts.Force && (i == n - 1)) = false →
      (conf.Opts.ImgCache = none →
        stageFetch conf n i env = (some "undefined image cache", [])) ∧
      (conf.Opts.ImgCache ≠ none → env.conveyorGet = none → env.packerPack = none →
        stageFetch conf n i env =
          (none, [BuildEvent.conveyorGet i, BuildEvent.packerPack i]))) := by
  constructor
  · intro hu
    simp only [stageFetch, hu, if_true]
    cases env.getLocalPacker <;> cases env.localPack <;> simp
  · intro hu
    refine ⟨?_, ?_⟩
    · intro hc
      simp [stageFetch, hu, hc]
    · intro hc h1 h2
      rcases hcc : conf.Opts.ImgCache with _ | c
      · exact absurd hcc hc
      · simp [stageFetch, hu, hcc, h1, h2]

/-- Witness for C3: with update set on the last (only) stage the fetch
phase is the extraction; without update and with a nil image cache the
fetch phase is the fatal error with no fetch action. -/
theorem full_update_skips_fetch_witness :
    BuildEvent.extractDest 0 ∈ (stageFetch confUpd 1 0 envOkW).2 ∧
    stageFetch confNoCache 1 0 envOkW = (some "undefined image cache", []) :=
  ⟨((full_update_skips_fetch_on_last_stage_only confUpd 1 0 envOkW).1 rfl).2,
   ((full_update_skips_fetch_on_last_stage_only confNoCache 1 0 envOkW).2 rfl).1 rfl⟩

/-- One stage iteration under a non-root caller with every external call
succeeding: the iteration fails with the wrapped privilege error exactly
when the recipe requires the engine, and the engine (and hence any
setup/post/test script) never runs. -/
theorem runStage_nonroot (conf : Config) (uid n i : Nat) (st : stage) (env : StageEnv)
    (hok : env.allOk = true) (hcache : conf.Opts.ImgCache = some ()) (huid : uid ≠ 0) :
    ((runStage conf uid n i st env).1 =
      if engineRequired st.b.Recipe then some ("while running engine: " ++ nonRootErr)
      else none) ∧
    ∀ k, BuildEvent.engineScripts k ∉ (runStage conf uid n i st env).2 := by
  rcases env with ⟨p1, p2, p3, p4, p5, p6, rf, p7, p8, p9⟩
  simp only [StageEnv.allOk, Bool.and_eq_true, Option.isNone_iff_eq_none] at hok
  obtain ⟨⟨⟨⟨⟨⟨⟨h1, h2⟩, h3⟩, h4⟩, h5⟩, h6⟩, h7⟩, h8⟩ := hok
  subst h1 h2 h3 h4 h5 h6 h7 h8
  simp only [runStage, stagePre, stageFetch, stageApps, stageCopyFiles, stageEngine,
    stageInsert, andThen, hcache]
  split_ifs <;> simp_all

/-- The stage loop under a non-root caller with every external call
succeeding: it succeeds when no stage requires the engine, fails with the
wrapped privilege error when some stage does, and never runs the engine. -/
theorem runStages_nonroot (conf : Config) (uid n : Nat)
    (hcache : conf.Opts.ImgCache = some ()) (huid : uid ≠ 0)
    (l : List (stage × StageEnv)) :
    ∀ i : Nat, (∀ p ∈ l, (p.2).allOk = true) →
      ((∀ p ∈ l, engineRequired p.1.b.Recipe = false) →
        (runStages conf uid n l i).1 = none) ∧
      ((∃ p ∈ l, engineRequired p.1.b.Recipe = true) →
        (runStages conf uid n l i).1 = some ("while running engine: " ++ nonRootErr)) ∧
      ∀ k, BuildEvent.engineScripts k ∉ (runStages conf uid n l i).2 := by
  induction l with
  | nil =>
    intro i _
    refine ⟨fun _ => rfl, ?_, by simp [runStages]⟩
    rintro ⟨p, hp, _⟩
    simp at hp
  | cons q rest ih =>
    intro i hall
    obtain ⟨st, env⟩ := q
    have hq := runStage_nonroot conf uid n i st env
      (hall (st, env) (List.mem_cons_self _ _)) hcache huid
    have hr := ih (i + 1) fun p hp => hall p (by simp [hp])
    cases he : engineRequired st.b.Recipe with
    | true =>
      have hq1 : (runStage conf uid n i st env).1 =
          some ("while running engine: " ++ nonRootErr) := by rw [hq.1, he, if_pos rfl]
      simp only [runStages, andThen, hq1]
      refine ⟨?_, fun _ => by trivial, hq.2⟩
      intro hno
      exact absurd (hno (st, env) (by simp)) (by simp [he])
    | false =>
      have hq1 : (runStage conf uid n i st env).1 = none := by
        rw [hq.1, he]; simp
      simp only [runStages, andThen, hq1]
      refine ⟨?_, ?_, ?_⟩
      · intro hno
        exact (hr.1 fun p hp => hno p (by simp [hp]))
      · rintro ⟨p, hp, hpe⟩
        simp only [List.mem_cons] at hp
        rcases hp with hp | hp
        · rw [hp] at hpe; simp [he] at hpe
        · exact hr.2.1 ⟨p, hp, hpe⟩
      · intro k hk
        simp only [List.mem_append] at hk
        rcases hk with hk | hk
        · exact hq.2 k hk
        · exact hr.2.2 k hk

/-- The last element of a list with one appended. -/
theorem getLast?_append_singleton {α : Type} (l : List α) (a : α) :
    (l ++ [a]).getLast? = some a := by
  induction l with
  | nil => rfl
  | cons x rest ih =>
    rw [List.cons_append, List.getLast?_cons, ih]
    rfl

/-- Counterexample to claim C5 as stated: the claim says the pipeline fails
"before any script executes". On a single-stage definition with both a
pre-script and a post script, run without root and with every external
call succeeding, `Full` returns the privilege error — but the `%pre`
script has already executed on the host (pre-scripts run before the engine
phase), so a script did execute before the failure. -/
theorem full_nonroot_pre_script_already_ran :
    (buildPP.Full fullEnvW 1000).1 = some ("while running engine: " ++ nonRootErr) ∧
    BuildEvent.preScript 0 ∈ (buildPP.Full fullEnvW 1000).2 := by
  exact ⟨rfl, by decide⟩

/-- Claim C5, amended: whenever a stage's recipe requires script execution
or file injection (any of setup/post/test non-empty or a files directive
present) and the caller is not root, with every step before the engine
succeeding, the pipeline fails with the explicit privilege error of
`runBuildEngine`, the engine is never launched — so no setup, post, or
test script executes (a `%pre` script may already have run on the host,
since pre-scripts precede the engine phase) — the failure is not retried,
and the deferred cleanup still runs (the trace ends with it). -/
theorem full_nonroot_privilege_error (b : Build) (env : FullEnv) (uid : Nat)
    (huid : uid ≠ 0)
    (hcache : b.Conf.Opts.ImgCache = some ())
    (hok : ∀ e ∈ env.stageEnvs, e.allOk = true)
    (hreq : ∃ p ∈ b.stages.zip env.stageEnvs, engineRequired p.1.b.Recipe = true) :
    (b.Full env uid).1 = some ("while running engine: " ++ nonRootErr) ∧
    (∀ k, BuildEvent.engineScripts k ∉ (b.Full env uid).2) ∧
    (b.Full env uid).2.getLast? = some BuildEvent.cleanUpRun := by
  have hall : ∀ p ∈ b.stages.zip env.stageEnvs, (p.2).allOk = true := by
    intro p hp
    exact hok p.2 (List.of_mem_zip hp).2
  have hs := runStages_nonroot b.Conf uid b.stages.length hcache huid
    (b.stages.zip env.stageEnvs) 0 hall
  have h1 := hs.2.1 hreq
  simp only [Build.Full, h1]
  refine ⟨by trivial, ?_, getLast?_append_singleton _ _⟩
  intro k hk
  simp only [List.mem_append, List.mem_singleton] at hk
  rcases hk with hk | hk
  · exact hs.2.2 k hk
  · exact absurd hk (by simp)

/-- Witness for the amended C5: the concrete non-root run fails with the
privilege error and its trace ends with the deferred cleanup. -/
theorem full_nonroot_privilege_error_witness :
    (buildPP.Full fullEnvW 1000).1 = some ("while running engine: " ++ nonRootErr) ∧
    (buildPP.Full fullEnvW 1000).2.getLast? = some BuildEvent.cleanUpRun :=
  ⟨(full_nonroot_privilege_error buildPP fullEnvW 1000 (by decide) rfl
      (by intro e he; simp only [fullEnvW, List.mem_singleton] at he; rw [he]; rfl)
      ⟨(stagePP, envOkW), List.mem_singleton.mpr rfl, rfl⟩).1,
   (full_nonroot_privilege_error buildPP fullEnvW 1000 (by decide) rfl
      (by intro e he; simp only [fullEnvW, List.mem_singleton] at he; rw [he]; rfl)
      ⟨(stagePP, envOkW), List.mem_singleton.mpr rfl, rfl⟩).2.2⟩

/-- Counterexample to claim C9 as stated: the claim says construction of a
multi-Definition pipeline fails unless every Definition carries a
non-empty stage name. Two definitions with non-nil headers but no stage
name at all construct successfully — the source checks only that each
header map is non-nil. -/
theorem newbuild_accepts_multistage_without_stage_names :
    1 < defsNoStage.length ∧
    (newBuild defsNoStage confSandbox nbEnvW).isOk = true ∧
    ∀ d ∈ defsNoStage, headerGet d.Header "stage" = "" := by
  refine ⟨by decide, rfl, by decide⟩

/-- The stage-construction loop always fails when some definition carries a
nil header map. -/
theorem buildStages_nil_header_fails (conf : Config) (env : NewBuildEnv) :
    ∀ (l : List Definition) (i : Nat), (∃ d ∈ l, d.Header = none) →
      ∃ e, buildStages conf env l i = .error e := by
  intro l
  induction l with
  | nil =>
    intro i h
    obtain ⟨d, hd, _⟩ := h
    simp at hd
  | cons d rest ih =>
    intro i h
    by_cases hd : d.Header = none
    · exact ⟨"multiple stages detected, all must have headers", by
        simp [buildStages, hd]⟩
    · obtain ⟨d', hd', hn'⟩ := h
      simp only [List.mem_cons] at hd'
      rcases hd' with hd' | hd'
      · exact absurd (hd' ▸ hn') hd
      · obtain ⟨e, he⟩ := ih (i + 1) ⟨d', hd', hn'⟩
        rcases hb : (if conf.Opts.EncryptionKeyInfo.isSome
            then env.newEncryptedBundle i else env.newBundle i) with eb | b0
        · exact ⟨eb, by simp [buildStages, hd, hb]⟩
        · by_cases hcp : (!conf.Opts.Update || conf.Opts.Force) = true
          · rcases hc : env.conveyorPacker d with ec | c
            · exact ⟨"unable to get conveyorpacker: " ++ ec,
                by simp [buildStages, hd, hb, hcp, hc]⟩
            · exact ⟨e, by simp [buildStages, hd, hb, hcp, hc, he]⟩
          · exact ⟨e, by simp [buildStages, hd, hb, hcp, he]⟩

/-- With every bundle creation and conveyor-packer dispatch succeeding, the
stage-construction loop on a list holding a nil-header definition fails
with exactly the "multiple stages detected, all must have headers" error:
the loop reaches the first nil-header definition and its check fires. -/
theorem buildStages_nil_header_msg (conf : Config) (env : NewBuildEnv)
    (hb : ∀ i, ∃ b, env.newBundle i = .ok b)
    (he : ∀ i, ∃ b, env.newEncryptedBundle i = .ok b)
    (hc : ∀ d, ∃ c, env.conveyorPacker d = .ok c) :
    ∀ (l : List Definition) (i : Nat), (∃ d ∈ l, d.Header = none) →
      buildStages conf env l i =
        .error "multiple stages detected, all must have headers" := by
  intro l
  induction l with
  | nil =>
    intro i h
    obtain ⟨d, hd, _⟩ := h
    simp at hd
  | cons d rest ih =>
    intro i h
    by_cases hd : d.Header = none
    · simp [buildStages, hd]
    · obtain ⟨d', hd', hn'⟩ := h
      simp only [List.mem_cons] at hd'
      rcases hd' with hd' | hd'
      · exact absurd (hd' ▸ hn') hd
      · have hrec := ih (i + 1) ⟨d', hd', hn'⟩
        rcases hbi : (if conf.Opts.EncryptionKeyInfo.isSome
            then env.newEncryptedBundle i else env.newBundle i) with eb | b0
        · by_cases hk : conf.Opts.EncryptionKeyInfo.isSome
          · obtain ⟨b, hbb⟩ := he i
            rw [if_pos hk, hbb] at hbi
            exact absurd hbi (by simp)
          · obtain ⟨b, hbb⟩ := hb i
            rw [if_neg hk, hbb] at hbi
            exact absurd hbi (by simp)
        · by_cases hcp : (!conf.Opts.Update || conf.Opts.Force) = true
          · obtain ⟨c, hcc⟩ := hc d
            simp [buildStages, hd, hbi, hcp, hcc, hrec]
          · simp [buildStages, hd, hbi, hcp, hrec]

/-- Claim C9, amended: construction fails whenever any supplied Definition
has a nil header map — the check is unconditional, not limited to
multi-Definition builds — and when the surrounding construction steps
(bundle creation, conveyor-packer dispatch) succeed, the reported error is
exactly "multiple stages detected, all must have headers". A non-nil
header with an empty or missing `stage` name is accepted, even with more
than one Definition. -/
theorem newbuild_fails_on_nil_header (defs : List Definition) (conf : Config)
    (env : NewBuildEnv) (h : ∃ d ∈ defs, d.Header = none) :
    (newBuild defs conf env).isOk = false ∧
    ((∀ i, ∃ b, env.newBundle i = .ok b) →
     (∀ i, ∃ b, env.newEncryptedBundle i = .ok b) →
     (∀ d, ∃ c, env.conveyorPacker d = .ok c) →
      newBuild defs conf env =
        .error "multiple stages detected, all must have headers") := by
  constructor
  · obtain ⟨e, he⟩ := buildStages_nil_header_fails (confEffective conf env) env defs 0 h
    simp [newBuild, he, Except.isOk, Except.toBool]
  · intro hb he hc
    have hmsg := buildStages_nil_header_msg (confEffective conf env) env hb he hc defs 0 h
    simp [newBuild, hmsg]

/-- Witness for the amended C9: a concrete two-definition list whose second
definition has a nil header fails to construct with exactly the
"multiple stages detected, all must have headers" error. -/
theorem newbuild_nil_header_witness :
    newBuild [defWithBootstrap "scratch", defNilHeader] confSandbox nbEnvW =
      .error "multiple stages detected, all must have headers" :=
  (newbuild_fails_on_nil_header [defWithBootstrap "scratch", defNilHeader] confSandbox nbEnvW
    ⟨defNilHeader, by decide, rfl⟩).2
    (fun _ => ⟨_, rfl⟩) (fun _ => ⟨_, rfl⟩) (fun _ => ⟨_, rfl⟩)

/-- `setLastAssembler` never empties a list. -/
theorem setLastAssembler_ne_nil (a : Assembler) (ss : List stage) (h : ss ≠ []) :
    setLastAssembler a ss ≠ [] := by
  cases ss with
  | nil => exact absurd rfl h
  | cons s rest => cases rest <;> simp [setLastAssembler]

/-- The last element after `setLastAssembler` carries the assembler. -/
theorem setLastAssembler_getLast (a : Assembler) :
    ∀ ss : List stage, ss ≠ [] →
      ∃ s', (setLastAssembler a ss).getLast? = some s' ∧ s'.a = some a := by
  intro ss
  induction ss with
  | nil => intro h; exact absurd rfl h
  | cons s rest ih =>
    intro _
    cases rest with
    | nil => exact ⟨{ s with a := some a }, rfl, rfl⟩
    | cons t ts =>
      obtain ⟨s', h1, h2⟩ := ih (by simp)
      refine ⟨s', ?_, h2⟩
      rw [show setLastAssembler a (s :: t :: ts) = s :: setLastAssembler a (t :: ts) from rfl]
      rw [List.getLast?_cons]
      rcases hg : (setLastAssembler a (t :: ts)).getLast? with _ | x
      · exact absurd (List.getLast?_eq_none_iff.mp hg) (setLastAssembler_ne_nil a (t :: ts)
          (by simp))
      · rw [hg] at h1
        simpa [hg] using h1

/-- Claim C10: for every build configuration in which the update option is
set, `newBuild` forces the output format to "sandbox" in its prologue,
before constructing any stage, so on success the built pipeline's format
is "sandbox" and the final stage's assembler is the sandbox assembler
regardless of the format the caller requested. -/
theorem newbuild_update_forces_sandbox (defs : List Definition) (conf : Config)
    (env : NewBuildEnv) (bld : Build)
    (hupd : conf.Opts.Update = true)
    (hok : newBuild defs conf env = .ok bld) :
    bld.Conf.Format = "sandbox" ∧
    ∃ s', bld.stages.getLast? = some s' ∧ s'.a = some Assembler.SandboxAssembler := by
  have hfmt : (confEffective conf env).Format = "sandbox" := by
    simp [confEffective, hupd]
  unfold newBuild at hok
  rcases hbs : buildStages (confEffective conf env) env defs 0 with e | stages
  · rw [hbs] at hok
    exact absurd hok (by simp)
  · rw [hbs] at hok
    replace hok : selectAssembler (confEffective conf env) env stages = .ok bld := hok
    unfold selectAssembler at hok
    rw [hfmt] at hok
    by_cases hemp : stages.isEmpty
    · rw [if_pos hemp] at hok
      exact absurd hok (by simp)
    · rw [if_neg hemp, if_pos rfl] at hok
      have hbld : bld =
          Build.mk (setLastAssembler Assembler.SandboxAssembler stages)
            (confEffective conf env) := by
        cases hok
        rfl
      subst hbld
      refine ⟨hfmt, ?_⟩
      exact setLastAssembler_getLast Assembler.SandboxAssembler stages
        (fun hn => hemp (by simp [hn]))

/-- Witness for C10: a caller requesting the SIF format with the update
option set gets a successfully constructed pipeline whose format is
"sandbox" and whose last stage carries the sandbox assembler. -/
theorem newbuild_update_forces_sandbox_witness :
    ∃ bld, newBuild [defWithBootstrap "scratch"] confUpdSif nbEnvW = .ok bld ∧
      bld.Conf.Format = "sandbox" ∧
      ∃ s', bld.stages.getLast? = some s' ∧ s'.a = some Assembler.SandboxAssembler :=
  ⟨_, rfl,
   newbuild_update_forces_sandbox [defWithBootstrap "scratch"] confUpdSif nbEnvW _ rfl rfl⟩

end Singularity
